import Mathlib

/-!
Verification development for the Neutral Summarizer streaming pipeline.

The definitions below are a shallow embedding of the streaming-response
code of the repository:

- `processLine`, `processChunk`, `runChunks`, `performSummarizationRun`
  embed the SSE read loop of `performSummarization` in
  `src/content.js` (lines 1377-1425); `performChatResponse`
  (lines 1645-1693) contains the identical loop.
- `chainContent`, `aLine`, `aChunk`, `aRun` embed
  `APIClient.handleStreamingResponse` in `src/utils/api-client.js`
  (lines 89-152).
- `p8Line`, `p8Chunk`, `p8Run` embed
  `ChatComponent.handleStreamingResponse` of the chat component file
  (lines 294-342 of that file).
- `chatCompletion` embeds `APIClient.chatCompletion`
  (`src/utils/api-client.js` lines 37-87).
- `contentSendMessage`, `p8SendMessage` embed the turn-starting guards
  of `content.js` `sendMessage` (lines 1466-1514) and of the chat
  component (lines 77-96, 393-403).
- `contentSummary` embeds the page-content truncation of
  `performChatResponse` (`src/content.js` lines 1572-1575).

Byte streams are modelled after UTF-8 decoding, as lists of characters
(`TextDecoder` with the stream option is the host decoder in every
variant).  `JSON.parse` is a host builtin; the embedding is
parameterised by a parse oracle of type `Chars -> Option Json`, and
concrete witnesses instantiate it with finite functions that map the
exact payload strings of the witness stream to their JSON values and
everything else (in particular every truncated payload) to `none`,
matching the behaviour of `JSON.parse` on those inputs.
-/

abbrev Chars := List Char

/-- The 6-character line marker `data: ` checked by `line.startsWith`
in every variant of the read loop. -/
def dataTag : Chars := ['d', 'a', 't', 'a', ':', ' ']

/-- The sentinel payload `[DONE]` compared against the text after the
marker. -/
def doneLit : Chars := ['[', 'D', 'O', 'N', 'E', ']']

/-- Model of `buffer.split(newline)` followed by `buffer = lines.pop()`:
the pair of the complete lines and the trailing remainder (the text
after the last newline). -/
def splitParts : Chars → List Chars × Chars
  | [] => ([], [])
  | c :: cs =>
    let p := splitParts cs
    if c = '\n' then ([] :: p.1, p.2)
    else
      match p.1 with
      | [] => ([], c :: p.2)
      | l :: t => ((c :: l) :: t, p.2)

/-- Model of the plain `chunk.split(newline)` used by the variants that
keep no buffer: all pieces, including the trailing partial line. -/
def jsSplit (s : Chars) : List Chars := (splitParts s).1 ++ [(splitParts s).2]

/-- JSON values, as produced by the host `JSON.parse`. -/
inductive Json where
  | null
  | jbool (b : Bool)
  | jnum (q : ℚ)
  | jstr (s : Chars)
  | jarr (elems : List Json)
  | jobj (fields : List (String × Json))

/-- Field lookup in an object literal. -/
def jget : List (String × Json) → String → Option Json
  | [], _ => none
  | (k, v) :: rest, key => if k = key then some v else jget rest key

/-- Property access `j.key`: `none` models the JS value undefined. -/
def Json.get : Json → String → Option Json
  | .jobj fields, key => jget fields key
  | _, _ => none

/-- Element access `j[n]` on an array; `none` models undefined. -/
def Json.idx : Json → Nat → Option Json
  | .jarr xs, n => xs.get? n
  | _, _ => none

/-- JS truthiness of a JSON value: null, false, zero and the empty
string are falsy; arrays and objects are always truthy. -/
def Json.truthy : Json → Bool
  | .null => false
  | .jbool b => b
  | .jnum q => q != 0
  | .jstr s => !s.isEmpty
  | .jarr _ => true
  | .jobj _ => true

/-- Truthiness of a possibly-undefined value. -/
def truthyO : Option Json → Bool
  | none => false
  | some j => j.truthy

/-- Model of `delta.content` followed by the empty-string fallback: the
content string when the field holds a string, otherwise the empty
string.  (In the OpenAI stream shape the content field, when present,
is a string.) -/
def contentOrEmpty (delta : Json) : Chars :=
  match delta.get "content" with
  | some (.jstr s) => s
  | _ => []

/-- The content-script decode step on one parsed frame, from
`src/content.js` lines 1404-1414: the guard is the truthiness of
`choices`, of `choices[0]` and of `choices[0].delta`; when it passes,
the appended text is `delta.content` with the empty-string fallback
(possibly empty), and the streamed message is re-rendered. -/
def lineDeltaPure (parsed : Json) : Option Chars :=
  let choices := parsed.get "choices"
  if truthyO choices then
    let c0 := choices.bind (fun cj => cj.idx 0)
    if truthyO c0 then
      let delta := c0.bind (fun cj => cj.get "delta")
      if truthyO delta then
        some (match delta with
              | some dj => contentOrEmpty dj
              | none => [])
      else none
    else none
  else none

/-- The content-script decode step on a raw payload: a parse failure is
swallowed by the surrounding try block and yields nothing. -/
def lineDelta (parse : Chars → Option Json) (d : Chars) : Option Chars :=
  match parse d with
  | none => none
  | some parsed => lineDeltaPure parsed

/-- The streamed message element of the content script: the text passed
to the renderer, whether the streaming-cursor glyph is appended, and
whether the element still carries the streaming class. -/
structure MsgView where
  content : Chars
  cursor : Bool
  streaming : Bool
deriving DecidableEq

/-- The line-level state of the content-script read loop: the
accumulated text, the successive texts passed to the renderer, the
streamed message element, and whether the enclosing function has
returned (which happens exactly at the sentinel). -/
structure LState where
  fullContent : Chars
  renders : List Chars
  msg : MsgView
  returned : Bool
deriving DecidableEq

/-- The state at the start of the read loop: empty accumulator, no
renders yet, and a fresh message element with the streaming class and
empty markup. -/
def initL : LState := ⟨[], [], ⟨[], false, true⟩, false⟩

/-- One iteration of the inner line loop of `performSummarization`
(`src/content.js` lines 1396-1420).  A line without the `data: ` marker
is skipped; the sentinel makes the whole function return (its locals
are discarded); otherwise the payload is decoded and, when the delta
guard passes, the text is appended and the message re-rendered with the
cursor glyph. -/
def processLine (parse : Chars → Option Json) (st : LState) (line : Chars) : LState :=
  if st.returned then st
  else if line.take 6 = dataTag then
    let d := line.drop 6
    if d = doneLit then { st with returned := true }
    else
      match lineDelta parse d with
      | some c =>
          { st with
            fullContent := st.fullContent ++ c
            renders := st.renders ++ [st.fullContent ++ c]
            msg := ⟨st.fullContent ++ c, true, st.msg.streaming⟩ }
      | none => st
  else st

/-- The inner for loop over the complete lines of one read. -/
def processLines (parse : Chars → Option Json) (st : LState) (lines : List Chars) : LState :=
  List.foldl (processLine parse) st lines

/-- Processing the buffered text of one read: split on newlines, keep
the trailing remainder as the new buffer, run the line loop on the
complete lines.  When the loop returned at the sentinel the buffer of
the finished call is modelled as empty. -/
def processBuf (parse : Chars → Option Json) (ls : LState) (buf : Chars) : LState × Chars :=
  let p := splitParts buf
  let l1 := processLines parse ls p.1
  (l1, if l1.returned then [] else p.2)

/-- One iteration of the outer while loop of `performSummarization`:
append the decoded chunk to the carried buffer, split, process the
complete lines, retain the remainder.  After the function has returned
no further chunk is read. -/
def processChunk (parse : Chars → Option Json) (s : LState × Chars) (chunk : Chars) :
    LState × Chars :=
  if s.1.returned then s else processBuf parse s.1 (s.2 ++ chunk)

/-- The whole read loop over the list of delivered fragments. -/
def runChunks (parse : Chars → Option Json) (chunks : List Chars) : LState × Chars :=
  List.foldl (processChunk parse) (initL, []) chunks

/-- A character-at-a-time machine equivalent to the chunked loop, used
to prove that the outcome does not depend on fragment boundaries. -/
def charStep (parse : Chars → Option Json) (s : LState × Chars) (c : Char) : LState × Chars :=
  if s.1.returned then s
  else if c = '\n' then (processLine parse s.1 s.2, [])
  else (s.1, s.2 ++ [c])

/-- The content-script run including the finalisation after the loop
(`src/content.js` lines 1423-1425): only when the loop ended by stream
close (not by the sentinel return) is the message re-rendered without
the cursor and the streaming class removed. -/
def performSummarizationRun (parse : Chars → Option Json) (chunks : List Chars) : LState :=
  let s := runChunks parse chunks
  if s.1.returned then s.1
  else { s.1 with msg := ⟨s.1.fullContent, false, false⟩ }

/-- The settings read by the content script at the start of a turn
(`chrome.storage.sync.get` in `src/content.js`); missing or empty
string fields are modelled as the empty list, an unset temperature as
`none`. -/
structure CSettings where
  apiKey : Chars
  dumplingApiKey : Chars
  baseUrl : Chars
  modelName : Chars
  temperature : Option ℚ
deriving DecidableEq

/-- The transport response visible to the read loop: the HTTP
success flag, the status, and the decoded fragments delivered by the
successive reads until the stream closes. -/
structure Resp where
  ok : Bool
  status : Nat
  chunks : List Chars
deriving DecidableEq

/-- Result of one content-script turn. -/
inductive Outcome where
  | configError
  | apiError (status : Nat)
  | streamed (final : LState)
deriving DecidableEq

/-- The whole of `performSummarization` (`src/content.js` lines
1267-1445): the configuration guard (which accepts either key), then
the fetch, the HTTP status check, the read loop and the finalisation.
The second component records whether a network request was issued. -/
def performSummarization (parse : Chars → Option Json) (s : CSettings) (resp : Resp) :
    Outcome × Bool :=
  if s.apiKey = [] ∧ s.dumplingApiKey = [] then (.configError, false)
  else if resp.ok = false then (.apiError resp.status, true)
  else (.streamed (performSummarizationRun parse resp.chunks), true)

/-- The temperature put in the request body by the content script:
`settings.temperature` with the JS or-fallback to the literal 0.3
(`src/content.js` lines 1338 and 1592). -/
def requestTemperature (settingsTemperature : Option ℚ) : ℚ :=
  match settingsTemperature with
  | none => 3 / 10
  | some t => if t = 0 then 3 / 10 else t

/-- The page-content truncation of `performChatResponse`
(`src/content.js` lines 1572-1575): content longer than 65536
characters is cut to the first 65536 characters and a marker suffix is
appended; shorter content is passed through unchanged. -/
def contentSummary (content : Chars) : Chars :=
  if content.length > 65536 then
    content.take 65536 ++ ("...[content truncated]".toList)
  else content

/-- The decode step shared by `APIClient.handleStreamingResponse`
(`src/utils/api-client.js` line 120) and the chat component (line 317
of its file): the optional chain through `choices`, index 0, `delta`
and `content` with the empty-string fallback, yielding a fragment only
when the result is non-empty.  A JSON parse failure, and the TypeError
thrown by indexing an undefined `choices`, are both caught by the
surrounding try block and yield nothing. -/
def chainPure (parsed : Json) : Option Chars :=
  match parsed.get "choices" with
  | none => none
  | some cs =>
    match cs.idx 0 with
    | none => none
    | some c0 =>
      match c0.get "delta" with
      | none => none
      | some dj =>
        match dj.get "content" with
        | some (.jstr s) => if s.isEmpty then none else some s
        | _ => none

/-- The same decode step on a raw payload string. -/
def chainContent (parse : Chars → Option Json) (d : Chars) : Option Chars :=
  match parse d with
  | none => none
  | some parsed => chainPure parsed

/-- State of `APIClient.handleStreamingResponse`: accumulated text,
the content fragments yielded so far, and the done flag set by the
sentinel or by stream close. -/
structure AState where
  fullContent : Chars
  yields : List Chars
  isDone : Bool
deriving DecidableEq

/-- One line of the APIClient loop (`src/utils/api-client.js` lines
110-134): the sentinel sets the done flag and breaks out of the line
loop (modelled by skipping the remaining lines once done); a decoded
non-empty fragment is accumulated and yielded. -/
def aLine (parse : Chars → Option Json) (st : AState) (line : Chars) : AState :=
  if st.isDone then st
  else if line.take 6 = dataTag then
    let d := line.drop 6
    if d = doneLit then { st with isDone := true }
    else
      match chainContent parse d with
      | some c => ⟨st.fullContent ++ c, st.yields ++ [c], st.isDone⟩
      | none => st
  else st

/-- One read of the APIClient loop: the chunk is split on newlines with
NO carried buffer (`src/utils/api-client.js` lines 107-108), so the
trailing partial line of the chunk is offered to the line loop as if it
were complete. -/
def aChunk (parse : Chars → Option Json) (st : AState) (chunk : Chars) : AState :=
  if st.isDone then st
  else List.foldl (aLine parse) st (jsSplit chunk)

/-- The APIClient read loop over the delivered fragments. -/
def aRun (parse : Chars → Option Json) (chunks : List Chars) : AState :=
  List.foldl (aChunk parse) ⟨[], [], false⟩ chunks

/-- State of the chat component streaming handler: accumulated text and
the successive texts passed to the markdown renderer. -/
structure P8State where
  fullContent : Chars
  renders : List Chars
deriving DecidableEq

/-- One line of the chat component loop (lines 310-329 of its file).
The sentinel is handled with a continue statement, so it neither stops
the loop nor records a terminal state; a decoded non-empty fragment is
accumulated and the message re-rendered. -/
def p8Line (parse : Chars → Option Json) (st : P8State) (line : Chars) : P8State :=
  if line.take 6 = dataTag then
    let d := line.drop 6
    if d = doneLit then st
    else
      match chainContent parse d with
      | some c => ⟨st.fullContent ++ c, st.renders ++ [st.fullContent ++ c]⟩
      | none => st
  else st

/-- One read of the chat component loop: again a plain split with no
carried buffer (lines 307-308 of its file). -/
def p8Chunk (parse : Chars → Option Json) (st : P8State) (chunk : Chars) : P8State :=
  List.foldl (p8Line parse) st (jsSplit chunk)

/-- The chat component read loop over the delivered fragments. -/
def p8Run (parse : Chars → Option Json) (chunks : List Chars) : P8State :=
  List.foldl (p8Chunk parse) ⟨[], []⟩ chunks

/-- Settings of the APIClient (`src/utils/api-client.js`). -/
structure ASettings where
  apiKey : Chars
  baseUrl : Chars
  modelName : Chars
deriving DecidableEq

/-- The request body fields assembled by `APIClient.chatCompletion`. -/
structure CCPayload where
  model : Chars
  stream : Bool
  temperature : ℚ
  maxTokens : Nat
deriving DecidableEq

/-- The options argument of `chatCompletion`: each field is either
present (and then overrides the default by object spread, whatever its
value) or absent. -/
structure CCOptions where
  model : Option Chars
  stream : Option Bool
  temperature : Option ℚ
  maxTokens : Option Nat
deriving DecidableEq

/-- The defaults of `chatCompletion` (`src/utils/api-client.js` lines
42-47): the settings model name with the gpt-3.5-turbo fallback, the
stream flag, temperature 0.7 and 4000 max tokens. -/
def ccDefaults (s : ASettings) : CCPayload :=
  { model := if s.modelName = [] then "gpt-3.5-turbo".toList else s.modelName
    stream := true
    temperature := 7 / 10
    maxTokens := 4000 }

/-- The object-spread merge of the defaults with the caller options
(`src/utils/api-client.js` line 49). -/
def mergeOptions (d : CCPayload) (o : CCOptions) : CCPayload :=
  { model := o.model.getD d.model
    stream := o.stream.getD d.stream
    temperature := o.temperature.getD d.temperature
    maxTokens := o.maxTokens.getD d.maxTokens }

/-- Result of `chatCompletion` up to the point where the request is
issued. -/
inductive CCResult where
  | configIncomplete
  | requested (payload : CCPayload)
deriving DecidableEq

/-- `APIClient.chatCompletion` (`src/utils/api-client.js` lines 37-69):
an empty or missing api key or base url throws the
configuration-incomplete error before any fetch; otherwise the merged
payload is sent.  The second component records whether a network
request was issued. -/
def chatCompletion (s : ASettings) (o : CCOptions) : CCResult × Bool :=
  if s.apiKey = [] ∨ s.baseUrl = [] then (.configIncomplete, false)
  else (.requested (mergeOptions (ccDefaults s) o), true)

/-- JS `String.trim` on the model of strings. -/
def jsTrim (s : Chars) : Chars :=
  let ws : Char → Bool := fun c => c = ' ' ∨ c = '\n' ∨ c = '\t' ∨ c = '\r'
  ((s.dropWhile ws).reverse.dropWhile ws).reverse

/-- The content-script `sendMessage` (`src/content.js` lines
1466-1514) as a turn-starting step.  Its only guard is a non-empty
trimmed input; there is no in-flight flag and no cancellation of a
previous stream, so the count of streams in flight (the
instrumentation carried here as the first component) simply grows. -/
def contentSendMessage (activeStreams : Nat) (input : Chars) : Nat × Bool :=
  if jsTrim input = [] then (activeStreams, false)
  else (activeStreams + 1, true)

/-- State of the chat component relevant to the concurrency guard: the
generating flag, plus the instrumented count of streams in flight. -/
structure ChatComp where
  isGenerating : Bool
  activeStreams : Nat
deriving DecidableEq

/-- The chat component `sendMessage` (lines 77-96 of its file): when a
turn is already generating the call returns at once; otherwise a
non-empty trimmed input starts a turn and `setLoading` sets the
generating flag before the stream begins. -/
def p8SendMessage (st : ChatComp) (input : Chars) : ChatComp × Bool :=
  if st.isGenerating then (st, false)
  else if jsTrim input = [] then (st, false)
  else ({ isGenerating := true, activeStreams := st.activeStreams + 1 }, true)

/-- The finally block of a chat component turn: `setLoading(false)`. -/
def p8FinishTurn (st : ChatComp) : ChatComp :=
  { isGenerating := false, activeStreams := st.activeStreams - 1 }

/-- Events driving the chat component session. -/
inductive P8Ev where
  | send (input : Chars)
  | finish
deriving DecidableEq

/-- The chat component session step. -/
def p8Step (st : ChatComp) : P8Ev → ChatComp
  | .send i => (p8SendMessage st i).1
  | .finish => p8FinishTurn st

/-- Invariant tying the generating flag to the number of streams in
flight. -/
def P8Inv (st : ChatComp) : Prop :=
  st.activeStreams = if st.isGenerating then 1 else 0

/-- Definition following the words of the specification: the string at
the path through `choices`, index 0, `delta`, `content`. -/
def specContentPath (j : Json) : Option Chars :=
  match ((j.get "choices").bind (fun cs => cs.idx 0)).bind
      (fun c0 => (c0.get "delta").bind (fun dj => dj.get "content")) with
  | some (.jstr s) => some s
  | _ => none

/-- The guard under which the content script re-renders the streamed
message for a frame: truthiness of `choices`, `choices[0]` and
`choices[0].delta`. -/
def deltaPresent (j : Json) : Bool :=
  truthyO (j.get "choices") &&
    truthyO ((j.get "choices").bind (fun cj => cj.idx 0)) &&
      truthyO (((j.get "choices").bind (fun cj => cj.idx 0)).bind (fun cj => cj.get "delta"))

/-- Definition following the words of the specification for the render
trace: walk the complete lines in arrival order, stop at the sentinel
frame, and after each frame that carries a delta output the text
accumulated so far. -/
def specRenderTrace (parse : Chars → Option Json) (acc : Chars) : List Chars → List Chars
  | [] => []
  | l :: ls =>
    if l.take 6 = dataTag then
      let d := l.drop 6
      if d = doneLit then []
      else
        match lineDelta parse d with
        | some c => (acc ++ c) :: specRenderTrace parse (acc ++ c) ls
        | none => specRenderTrace parse acc ls
    else specRenderTrace parse acc ls

/-- The complete sentinel line `data: [DONE]`. -/
def doneLineL : Chars := dataTag ++ doneLit

/-- Invariant of the chunked loop state: the carried buffer holds no
newline, and a returned state carries an empty buffer. -/
def BufInv (s : LState × Chars) : Prop :=
  '\n' ∉ s.2 ∧ (s.1.returned = true → s.2 = [])

/-! Concrete frames and parse oracles used by witnesses and
counterexamples.  Each oracle maps the exact payload texts of its
stream to the values `JSON.parse` produces on them, and everything
else (in particular truncated payloads, on which `JSON.parse` throws)
to `none`. -/

/-- The frame payload carrying the content fragment `A`. -/
def payloadA : Chars := "\x7b\"choices\":[\x7b\"delta\":\x7b\"content\":\"A\"\x7d\x7d]\x7d".toList

/-- The parsed value of `payloadA`. -/
def jsonA : Json :=
  .jobj [("choices", .jarr [.jobj [("delta", .jobj [("content", .jstr ['A'])])]])]

/-- Parse oracle knowing only `payloadA`. -/
def pfA : Chars → Option Json := fun s => if s = payloadA then some jsonA else none

/-- The frame payload carrying the content fragment `Hi`. -/
def payloadHi : Chars := "\x7b\"choices\":[\x7b\"delta\":\x7b\"content\":\"Hi\"\x7d\x7d]\x7d".toList

/-- The parsed value of `payloadHi`. -/
def jsonHi : Json :=
  .jobj [("choices", .jarr [.jobj [("delta", .jobj [("content", .jstr ['H', 'i'])])]])]

/-- Parse oracle knowing only `payloadHi`. -/
def pfHi : Chars → Option Json := fun s => if s = payloadHi then some jsonHi else none

/-- Parse oracle knowing `payloadHi` and `payloadA`. -/
def pfAB : Chars → Option Json := fun s =>
  if s = payloadHi then some jsonHi else if s = payloadA then some jsonA else none

/-- A truncated payload, on which `JSON.parse` throws. -/
def badPayload : Chars := "\x7b\"choi".toList

/-- A role-only frame: `choices[0].delta` is present (and truthy) but
the content path is absent. -/
def payloadRole : Chars :=
  "\x7b\"choices\":[\x7b\"delta\":\x7b\"role\":\"assistant\"\x7d\x7d]\x7d".toList

/-- The parsed value of `payloadRole`. -/
def jsonRole : Json :=
  .jobj [("choices", .jarr
    [.jobj [("delta", .jobj [("role", .jstr ['a', 's', 's', 'i', 's', 't', 'a', 'n', 't'])])]])]

/-- Parse oracle knowing only `payloadRole`. -/
def pfRole : Chars → Option Json := fun s => if s = payloadRole then some jsonRole else none

/-- The frame payload carrying the content fragment `late`. -/
def payloadLate : Chars :=
  "\x7b\"choices\":[\x7b\"delta\":\x7b\"content\":\"late\"\x7d\x7d]\x7d".toList

/-- The parsed value of `payloadLate`. -/
def jsonLate : Json :=
  .jobj [("choices", .jarr [.jobj [("delta", .jobj [("content", .jstr ['l', 'a', 't', 'e'])])]])]

/-- Parse oracle knowing only `payloadLate`. -/
def pfLate : Chars → Option Json := fun s => if s = payloadLate then some jsonLate else none

/-! Helper lemmas about the read-loop machines. -/

lemma processLine_ret (parse : Chars → Option Json) (st : LState) (l : Chars)
    (h : st.returned = true) : processLine parse st l = st := by
  simp [processLine, h]

lemma processLines_ret (parse : Chars → Option Json) (L : List Chars) (st : LState)
    (h : st.returned = true) : processLines parse st L = st := by
  induction L with
  | nil => rfl
  | cons l ls ih =>
    simp only [processLines, List.foldl] at *
    rw [processLine_ret parse st l h, ih]

lemma feed_ret (parse : Chars → Option Json) (l : Chars) (s : LState × Chars)
    (h : s.1.returned = true) : List.foldl (charStep parse) s l = s := by
  induction l with
  | nil => rfl
  | cons c cs ih =>
    simp only [List.foldl]
    rw [show charStep parse s c = s by simp [charStep, h], ih]

lemma splitParts_nlFree (s : Chars) (h : '\n' ∉ s) : splitParts s = ([], s) := by
  induction s with
  | nil => rfl
  | cons c cs ih =>
    simp only [List.mem_cons, not_or] at h
    simp [splitParts, ih h.2, Ne.symm h.1]

lemma splitParts_append_nl (a b : Chars) (h : '\n' ∉ a) :
    splitParts (a ++ '\n' :: b) = (a :: (splitParts b).1, (splitParts b).2) := by
  induction a with
  | nil => simp [splitParts]
  | cons c a2 ih =>
    simp only [List.mem_cons, not_or] at h
    simp [splitParts, ih h.2, Ne.symm h.1]

lemma processBuf_eq_feed (parse : Chars → Option Json) :
    ∀ (chunk : Chars) (ls : LState) (b : Chars), ls.returned = false → '\n' ∉ b →
      processBuf parse ls (b ++ chunk) = List.foldl (charStep parse) (ls, b) chunk := by
  intro chunk
  induction chunk with
  | nil =>
    intro ls b hr hb
    simp [processBuf, splitParts_nlFree b hb, processLines, hr]
  | cons c cs ih =>
    intro ls b hr hb
    by_cases hc : c = '\n'
    · subst hc
      have hcs : charStep parse (ls, b) '\n' = (processLine parse ls b, []) := by
        simp [charStep, hr]
      rw [List.foldl_cons, hcs]
      by_cases hret : (processLine parse ls b).returned = true
      · rw [feed_ret parse cs _ hret]
        have hsp := splitParts_append_nl b cs hb
        simp only [processBuf, hsp]
        rw [show processLines parse ls (b :: (splitParts cs).1)
              = processLines parse (processLine parse ls b) (splitParts cs).1 from rfl]
        rw [processLines_ret parse _ _ hret]
        simp [hret]
      · rw [← ih (processLine parse ls b) [] (Bool.not_eq_true _ ▸ hret) (by simp)]
        have hsp := splitParts_append_nl b cs hb
        simp only [processBuf, hsp, List.nil_append]
        rfl
    · have hcs : charStep parse (ls, b) c = (ls, b ++ [c]) := by
        simp [charStep, hr, hc]
      rw [List.foldl_cons, hcs, ← ih ls (b ++ [c]) hr (by simp [hb, hc, Ne.symm hc])]
      rw [show b ++ c :: cs = (b ++ [c]) ++ cs by simp]

lemma processChunk_eq_feed (parse : Chars → Option Json) (s : LState × Chars) (chunk : Chars)
    (h : BufInv s) : processChunk parse s chunk = List.foldl (charStep parse) s chunk := by
  by_cases hr : s.1.returned = true
  · rw [feed_ret parse chunk s hr]
    simp [processChunk, hr]
  · have hr2 : s.1.returned = false := Bool.not_eq_true _ ▸ hr
    have := processBuf_eq_feed parse chunk s.1 s.2 hr2 h.1
    simpa [processChunk, hr2] using this

lemma charStep_inv (parse : Chars → Option Json) (s : LState × Chars) (c : Char)
    (h : BufInv s) : BufInv (charStep parse s c) := by
  by_cases hr : s.1.returned = true
  · simpa [charStep, hr] using h
  · have hr2 : s.1.returned = false := Bool.not_eq_true _ ▸ hr
    by_cases hc : c = '\n'
    · subst hc
      have hcs : charStep parse s '\n' = (processLine parse s.1 s.2, []) := by
        simp [charStep, hr2]
      rw [hcs]
      exact ⟨by simp, fun _ => rfl⟩
    · have hcs : charStep parse s c = (s.1, s.2 ++ [c]) := by
        simp [charStep, hr2, hc]
      rw [hcs]
      refine ⟨?_, ?_⟩
      · simp only [List.mem_append, List.mem_singleton, not_or]
        exact ⟨h.1, fun he => hc he.symm⟩
      · intro hret
        exact absurd hret (by simp [hr2])

lemma feed_inv (parse : Chars → Option Json) :
    ∀ (l : Chars) (s : LState × Chars), BufInv s → BufInv (List.foldl (charStep parse) s l) := by
  intro l
  induction l with
  | nil => exact fun s h => h
  | cons c cs ih => exact fun s h => ih _ (charStep_inv parse s c h)

lemma run_eq_feed_flatten (parse : Chars → Option Json) :
    ∀ (chunks : List Chars) (s : LState × Chars), BufInv s →
      List.foldl (processChunk parse) s chunks
        = List.foldl (charStep parse) s (List.flatten chunks) := by
  intro chunks
  induction chunks with
  | nil => intro s _; rfl
  | cons c rest ih =>
    intro s h
    rw [List.foldl_cons, processChunk_eq_feed parse s c h,
      ih _ (feed_inv parse c s h), List.flatten_cons, List.foldl_append]

/-- C1: for every parse oracle and every fragmentation of the byte
stream, the content-script pipeline reaches exactly the same state
(accumulated text, render trace, message view, termination flag and
carried buffer) as when the whole stream is delivered in one single
fragment; and as long as the loop has not returned, the carried buffer
is exactly the text after the last newline received so far, i.e. the
trailing partial line is buffered across fragments. -/
theorem c1_theorem (parse : Chars → Option Json) (chunks : List Chars) :
    runChunks parse chunks = runChunks parse [List.flatten chunks] ∧
    ((runChunks parse chunks).1.returned = false →
      (runChunks parse chunks).2 = (splitParts (List.flatten chunks)).2) := by
  have hinv : BufInv (initL, ([] : Chars)) := ⟨by simp, fun _ => rfl⟩
  have h1 : runChunks parse chunks
      = List.foldl (charStep parse) (initL, []) (List.flatten chunks) :=
    run_eq_feed_flatten parse chunks _ hinv
  have h2 : runChunks parse [List.flatten chunks]
      = List.foldl (charStep parse) (initL, []) (List.flatten chunks) := by
    have := run_eq_feed_flatten parse [List.flatten chunks] _ hinv
    simpa using this
  have heq : runChunks parse chunks = runChunks parse [List.flatten chunks] :=
    h1.trans h2.symm
  refine ⟨heq, ?_⟩
  intro hret
  rw [heq] at hret ⊢
  have h3 : runChunks parse [List.flatten chunks]
      = processBuf parse initL (List.flatten chunks) := by
    show processChunk parse (initL, []) (List.flatten chunks) = _
    simp [processChunk, show initL.returned = false from rfl]
  rw [h3] at hret ⊢
  simp only [processBuf] at hret ⊢
  simp [hret]

lemma processLines_append (parse : Chars → Option Json) (st : LState) (L1 L2 : List Chars) :
    processLines parse st (L1 ++ L2) = processLines parse (processLines parse st L1) L2 :=
  List.foldl_append _ _ _ _

lemma processLine_doneLine (parse : Chars → Option Json) (st : LState) :
    (processLine parse st doneLineL).returned = true := by
  by_cases hr : st.returned = true
  · rw [processLine_ret parse st _ hr]; exact hr
  · have hr2 : st.returned = false := Bool.not_eq_true _ ▸ hr
    have h6 : doneLineL.take 6 = dataTag := rfl
    have hd : doneLineL.drop 6 = doneLit := rfl
    simp [processLine, hr2, h6, hd]

lemma renders_trace (parse : Chars → Option Json) :
    ∀ (L : List Chars) (st : LState), st.returned = false →
      (processLines parse st L).renders = st.renders ++ specRenderTrace parse st.fullContent L := by
  intro L
  induction L with
  | nil => intro st _; simp [processLines, specRenderTrace]
  | cons l ls ih =>
    intro st hr
    rw [show processLines parse st (l :: ls) = processLines parse (processLine parse st l) ls
      from rfl]
    by_cases h6 : l.take 6 = dataTag
    · by_cases hd : l.drop 6 = doneLit
      · have hpl : processLine parse st l = { st with returned := true } := by
          simp [processLine, hr, h6, hd]
        rw [hpl, processLines_ret parse ls _ rfl]
        simp [specRenderTrace, h6, hd]
      · cases hld : lineDelta parse (l.drop 6) with
        | none =>
          have hpl : processLine parse st l = st := by
            simp [processLine, hr, h6, hd, hld]
          rw [hpl, ih st hr]
          simp [specRenderTrace, h6, hd, hld]
        | some c =>
          have hpl : processLine parse st l = { st with fullContent := st.fullContent ++ c, renders := st.renders ++ [st.fullContent ++ c], msg := ⟨st.fullContent ++ c, true, st.msg.streaming⟩ } := by
            simp [processLine, hr, h6, hd, hld]
          rw [hpl,
            ih { st with fullContent := st.fullContent ++ c, renders := st.renders ++ [st.fullContent ++ c], msg := ⟨st.fullContent ++ c, true, st.msg.streaming⟩ } hr]
          simp [specRenderTrace, h6, hd, hld]
    · have hpl : processLine parse st l = st := by simp [processLine, hr, h6]
      rw [hpl, ih st hr]
      simp [specRenderTrace, h6]

/-- C2 (amended): in the content-script pipeline, feeding any frames
after the sentinel line leaves the resulting state unchanged, so no
render can occur after the terminal state; and the render trace is
exactly the specification trace: one render per delta frame, in
arrival order, stopping at the sentinel.  (The chat component variant
violates the original claim; see the counterexample.) -/
theorem c2_theorem :
    (∀ (parse : Chars → Option Json) (pre post : List Chars),
      processLines parse initL (pre ++ doneLineL :: post)
        = processLines parse initL (pre ++ [doneLineL])) ∧
    (∀ (parse : Chars → Option Json) (L : List Chars),
      (processLines parse initL L).renders = specRenderTrace parse [] L) := by
  constructor
  · intro parse pre post
    rw [show pre ++ doneLineL :: post = (pre ++ [doneLineL]) ++ post by simp,
      processLines_append]
    apply processLines_ret
    rw [processLines_append]
    exact processLine_doneLine parse _
  · intro parse L
    have := renders_trace parse L initL rfl
    simpa [initL] using this

lemma processLine_malformed (parse : Chars → Option Json) (st : LState) (bad : Chars)
    (hp : parse bad = none) (hb : bad ≠ doneLit) :
    processLine parse st (dataTag ++ bad) = st := by
  by_cases hr : st.returned = true
  · exact processLine_ret parse st _ hr
  · have hr2 : st.returned = false := Bool.not_eq_true _ ▸ hr
    have hlen : dataTag.length = 6 := rfl
    have h6 : (dataTag ++ bad).take 6 = dataTag := by rw [← hlen, List.take_left]
    have hd : (dataTag ++ bad).drop 6 = bad := by rw [← hlen, List.drop_left]
    simp [processLine, hr2, h6, hd, hb, lineDelta, hp]

/-- C4: a frame whose payload fails to parse is swallowed inside the
decode step of both the content-script loop and the APIClient loop: the
run over any stream containing the malformed frame is identical to the
run over the same stream with that frame removed, so the surrounding
well-formed frames are still delivered, in order, and no error
propagates. -/
theorem c4_theorem (parse : Chars → Option Json) (st : LState) (L1 L2 : List Chars)
    (bad : Chars) (hp : parse bad = none) (hb : bad ≠ doneLit) :
    processLines parse st (L1 ++ (dataTag ++ bad) :: L2) = processLines parse st (L1 ++ L2) ∧
    ∀ ast : AState, aLine parse ast (dataTag ++ bad) = ast := by
  constructor
  · rw [show L1 ++ (dataTag ++ bad) :: L2 = (L1 ++ [dataTag ++ bad]) ++ L2 by simp,
      processLines_append, processLines_append parse st L1 L2]
    congr 1
    rw [processLines_append]
    exact processLine_malformed parse _ bad hp hb
  · intro ast
    by_cases hdone : ast.isDone = true
    · simp [aLine, hdone]
    · have hd2 : ast.isDone = false := Bool.not_eq_true _ ▸ hdone
      have hlen : dataTag.length = 6 := rfl
      have h6 : (dataTag ++ bad).take 6 = dataTag := by rw [← hlen, List.take_left]
      have hd : (dataTag ++ bad).drop 6 = bad := by rw [← hlen, List.drop_left]
      simp [aLine, hd2, h6, hd, hb, chainContent, hp]


/-- C4 witness: a concrete stream with a truncated (unparseable)
payload between two well-formed content frames accumulates exactly the
two good fragments, and the APIClient line step also skips the
malformed frame. -/
theorem c4_witness :
    pfAB badPayload = none ∧ badPayload ≠ doneLit ∧
    processLines pfAB initL
        ([dataTag ++ payloadHi] ++ (dataTag ++ badPayload) :: [dataTag ++ payloadA])
      = processLines pfAB initL ([dataTag ++ payloadHi] ++ [dataTag ++ payloadA]) ∧
    aLine pfAB ⟨[], [], false⟩ (dataTag ++ badPayload) = ⟨[], [], false⟩ :=
  ⟨rfl, by decide,
    (c4_theorem pfAB initL [dataTag ++ payloadHi] [dataTag ++ payloadA] badPayload rfl
      (by decide)).1,
    (c4_theorem pfAB ⟨[], [], ⟨[], false, true⟩, false⟩ [] [] badPayload rfl (by decide)).2
      ⟨[], [], false⟩⟩

/-- C1 witness: a concrete sentinel-free stream, delivered in three
fragments with one frame split in the middle of its payload, on which
the buffered remainder is exactly the text after the last newline. -/
theorem c1_witness :
    (runChunks pfA [dataTag ++ payloadA.take 10, payloadA.drop 10 ++ ['\n'],
        dataTag ++ ['p', 'a', 'r']]).1.returned = false ∧
    (runChunks pfA [dataTag ++ payloadA.take 10, payloadA.drop 10 ++ ['\n'],
        dataTag ++ ['p', 'a', 'r']]).2
      = (splitParts (List.flatten [dataTag ++ payloadA.take 10, payloadA.drop 10 ++ ['\n'],
          dataTag ++ ['p', 'a', 'r']])).2 :=
  ⟨by decide,
    (c1_theorem pfA [dataTag ++ payloadA.take 10, payloadA.drop 10 ++ ['\n'],
      dataTag ++ ['p', 'a', 'r']]).2 (by decide)⟩

/-- C1 counterexample: the APIClient pipeline is not chunk-boundary
independent.  The single frame `data: payloadA` followed by a newline,
delivered whole, accumulates the fragment `A`; delivered split in the
middle of the payload, both pieces are discarded (the first is an
unparseable `data: ` line, the second lacks the marker) and the
accumulated text is empty. -/
theorem c1_counterexample :
    aRun pfA [dataTag ++ payloadA.take 10, payloadA.drop 10 ++ ['\n']]
      ≠ aRun pfA [(dataTag ++ payloadA.take 10) ++ (payloadA.drop 10 ++ ['\n'])] := by
  decide

/-- C2 counterexample: the chat component handles the sentinel with a
continue statement instead of stopping, so a frame arriving after
`data: [DONE]` is still decoded and rendered: on the stream consisting
of the sentinel line followed by a content frame, one render happens
after the sentinel, whereas the stream that stops at the sentinel
renders nothing. -/
theorem c2_counterexample :
    (p8Run pfLate [doneLineL ++ '\n' :: (dataTag ++ payloadLate ++ ['\n'])]).renders
      = [['l', 'a', 't', 'e']] ∧
    (p8Run pfLate [doneLineL ++ ['\n']]).renders = [] := by
  decide

/-- C3: evaluation of the content-script run on a stream that delivers
one content frame and then the sentinel.  The loop returns at the
sentinel, and because the cursor-stripping finalisation after the loop
is thereby skipped, the displayed message still carries the
streaming-cursor glyph and the streaming class, while the text is the
full accumulated `Hi`. -/
theorem c3_theorem :
    (performSummarizationRun pfHi [dataTag ++ payloadHi ++ '\n' :: (doneLineL ++ ['\n'])]).returned
        = true ∧
    (performSummarizationRun pfHi [dataTag ++ payloadHi ++ '\n' :: (doneLineL ++ ['\n'])]).msg
        = ⟨['H', 'i'], true, true⟩ ∧
    (performSummarizationRun pfHi
        [dataTag ++ payloadHi ++ '\n' :: (doneLineL ++ ['\n'])]).fullContent = ['H', 'i'] := by
  decide

/-- C5: when the transport succeeds, the configuration guard passes and
the stream closes without the loop ever returning at the sentinel, the
turn ends in the streamed outcome (not the error outcome) with the
message finalised to whatever text was accumulated, without the cursor
and without the streaming class. -/
theorem c5_theorem (parse : Chars → Option Json) (s : CSettings) (resp : Resp)
    (hk : s.apiKey ≠ [] ∨ s.dumplingApiKey ≠ []) (hok : resp.ok = true)
    (hnr : (runChunks parse resp.chunks).1.returned = false) :
    performSummarization parse s resp
      = (.streamed { (runChunks parse resp.chunks).1 with
          msg := ⟨(runChunks parse resp.chunks).1.fullContent, false, false⟩ }, true) := by
  have hguard : ¬(s.apiKey = [] ∧ s.dumplingApiKey = []) := by
    rcases hk with h | h
    · exact fun hc => h hc.1
    · exact fun hc => h hc.2
  simp [performSummarization, hguard, hok, performSummarizationRun, hnr]

/-- C5 witness: a concrete stream that closes after one content frame
and never sends the sentinel still finalises with the accumulated
text. -/
theorem c5_witness :
    ((⟨['k'], [], ['u'], ['m'], none⟩ : CSettings).apiKey ≠ [] ∨
      (⟨['k'], [], ['u'], ['m'], none⟩ : CSettings).dumplingApiKey ≠ []) ∧
    (⟨true, 200, [dataTag ++ payloadHi ++ ['\n']]⟩ : Resp).ok = true ∧
    (runChunks pfHi [dataTag ++ payloadHi ++ ['\n']]).1.returned = false ∧
    performSummarization pfHi ⟨['k'], [], ['u'], ['m'], none⟩
        ⟨true, 200, [dataTag ++ payloadHi ++ ['\n']]⟩
      = (.streamed { (runChunks pfHi [dataTag ++ payloadHi ++ ['\n']]).1 with
          msg := ⟨(runChunks pfHi [dataTag ++ payloadHi ++ ['\n']]).1.fullContent,
            false, false⟩ }, true) :=
  ⟨Or.inl (by decide), rfl, by decide,
    c5_theorem pfHi ⟨['k'], [], ['u'], ['m'], none⟩
      ⟨true, 200, [dataTag ++ payloadHi ++ ['\n']]⟩ (Or.inl (by decide)) rfl (by decide)⟩

/-- C6 (amended): the chat component enforces the single-stream guard:
a send while a turn is generating returns at once without starting
anything, and along every event sequence from a state satisfying the
flag invariant at most one stream is in flight.  (The content-script
sidebar has no such guard; see the counterexample.) -/
theorem c6_theorem :
    (∀ (st : ChatComp) (i : Chars), st.isGenerating = true → p8SendMessage st i = (st, false)) ∧
    (∀ (st : ChatComp) (evs : List P8Ev), P8Inv st → P8Inv (List.foldl p8Step st evs)) ∧
    (∀ st : ChatComp, P8Inv st → st.activeStreams ≤ 1) := by
  refine ⟨?_, ?_, ?_⟩
  · intro st i h
    simp [p8SendMessage, h]
  · have hstep : ∀ (st : ChatComp) (e : P8Ev), P8Inv st → P8Inv (p8Step st e) := by
      intro st e h
      cases e with
      | send i =>
        by_cases hg : st.isGenerating = true
        · simpa [p8Step, p8SendMessage, hg] using h
        · have hg2 : st.isGenerating = false := Bool.not_eq_true _ ▸ hg
          by_cases ht : jsTrim i = []
          · simpa [p8Step, p8SendMessage, hg2, ht] using h
          · have h0 : st.activeStreams = 0 := by simpa [P8Inv, hg2] using h
            simp [p8Step, p8SendMessage, hg2, ht, P8Inv, h0]
      | finish =>
        rw [P8Inv] at h
        simp only [p8Step, p8FinishTurn, P8Inv]
        by_cases hg : st.isGenerating = true <;> simp [hg] at h ⊢ <;> omega
    intro st evs
    induction evs generalizing st with
    | nil => exact fun h => h
    | cons e es ih => exact fun h => ih _ (hstep st e h)
  · intro st h
    rw [P8Inv] at h
    by_cases hg : st.isGenerating = true <;> simp [hg] at h <;> omega

/-- C6 witness: in a concrete generating state the guard rejects a new
send, the invariant is preserved along a concrete event sequence, and
it bounds the streams in flight by one. -/
theorem c6_witness :
    p8SendMessage ⟨true, 1⟩ ['h', 'i'] = (⟨true, 1⟩, false) ∧
    P8Inv (List.foldl p8Step ⟨true, 1⟩ [.finish, .send ['h', 'i']]) ∧
    (⟨true, 1⟩ : ChatComp).activeStreams ≤ 1 :=
  ⟨c6_theorem.1 ⟨true, 1⟩ ['h', 'i'] rfl,
    c6_theorem.2.1 ⟨true, 1⟩ [.finish, .send ['h', 'i']] rfl,
    c6_theorem.2.2 ⟨true, 1⟩ rfl⟩

/-- C6 counterexample: the content-script `sendMessage` starts a new
streaming turn on a non-empty input even while one stream is already
in flight: nothing is rejected and the prior stream is not cancelled,
leaving two streams in flight. -/
theorem c6_counterexample : contentSendMessage 1 ['h', 'i'] = (2, true) := by decide

/-- C7 (amended): `APIClient.chatCompletion` fails fast with the
configuration-incomplete error and no network call when the api key or
the base url is empty; the content-script turn fails fast without a
network call only when BOTH the api key and the DumplingAI key are
empty.  (With an empty api key but a DumplingAI key present the
content script does issue the request; see the counterexample.) -/
theorem c7_theorem :
    (∀ (s : ASettings) (o : CCOptions), s.apiKey = [] ∨ s.baseUrl = [] →
      chatCompletion s o = (.configIncomplete, false)) ∧
    (∀ (parse : Chars → Option Json) (s : CSettings) (resp : Resp),
      s.apiKey = [] → s.dumplingApiKey = [] →
        performSummarization parse s resp = (.configError, false)) := by
  constructor
  · intro s o h
    simp [chatCompletion, h]
  · intro parse s resp h1 h2
    simp [performSummarization, h1, h2]

/-- C7 witness: concrete empty-key invocations of both request paths
fail fast without a network call. -/
theorem c7_witness :
    chatCompletion ⟨[], ['u'], ['m']⟩ ⟨none, none, none, none⟩ = (.configIncomplete, false) ∧
    performSummarization pfHi ⟨[], [], ['u'], ['m'], none⟩ ⟨true, 200, []⟩
      = (.configError, false) :=
  ⟨c7_theorem.1 ⟨[], ['u'], ['m']⟩ ⟨none, none, none, none⟩ (Or.inl rfl),
    c7_theorem.2 pfHi ⟨[], [], ['u'], ['m'], none⟩ ⟨true, 200, []⟩ rfl rfl⟩

/-- C7 counterexample: the content-script turn with an empty api key
but a DumplingAI key still issues the network request, and with a
non-empty api key but an empty base url it also issues the request;
neither invocation surfaces the configuration error. -/
theorem c7_counterexample :
    (performSummarization pfHi ⟨[], ['k'], ['u'], ['m'], none⟩ ⟨true, 200, []⟩).2 = true ∧
    (performSummarization pfHi ⟨[], ['k'], ['u'], ['m'], none⟩ ⟨true, 200, []⟩).1
      ≠ .configError ∧
    (performSummarization pfHi ⟨['k'], [], [], ['m'], none⟩ ⟨true, 200, []⟩).2 = true := by
  decide

/-- C8 (amended): the decoder of the APIClient and chat component
emits a content fragment exactly when the string at the path through
`choices`, index 0, `delta`, `content` is present and non-empty; the
content-script loop, however, re-renders the message exactly when
`choices[0].delta` is present and truthy, which includes frames whose
content at that path is absent or empty.  (See the counterexample for
a role-only frame that triggers a render.) -/
theorem c8_theorem :
    (∀ (j : Json) (s : Chars), chainPure j = some s ↔ (specContentPath j = some s ∧ s ≠ [])) ∧
    (∀ (parse : Chars → Option Json) (d : Chars) (j : Json), parse d = some j →
      (lineDelta parse d).isSome = deltaPresent j) := by
  constructor
  · intro j s
    cases h1 : j.get "choices" with
    | none => simp [chainPure, specContentPath, h1]
    | some cs =>
      cases h2 : cs.idx 0 with
      | none => simp [chainPure, specContentPath, h1, h2]
      | some c0 =>
        cases h3 : c0.get "delta" with
        | none => simp [chainPure, specContentPath, h1, h2, h3]
        | some dj =>
          cases h4 : dj.get "content" with
          | none => simp [chainPure, specContentPath, h1, h2, h3, h4]
          | some v =>
            cases v with
            | jstr s0 =>
              by_cases h5 : s0 = []
              · subst h5
                simp [chainPure, specContentPath, h1, h2, h3, h4]
              · have h6 : s0.isEmpty = false := by
                  cases s0 with
                  | nil => exact absurd rfl h5
                  | cons a as => rfl
                have hspec : specContentPath j = some s0 := by
                  simp [specContentPath, h1, h2, h3, h4]
                have hchain : chainPure j = some s0 := by
                  simp [chainPure, h1, h2, h3, h4, h6]
                rw [hchain, hspec]
                constructor
                · intro h
                  rw [Option.some_inj] at h
                  exact ⟨congrArg Option.some h, h ▸ h5⟩
                · exact fun h => h.1
            | null => simp [chainPure, specContentPath, h1, h2, h3, h4]
            | jbool b => simp [chainPure, specContentPath, h1, h2, h3, h4]
            | jnum q => simp [chainPure, specContentPath, h1, h2, h3, h4]
            | jarr xs => simp [chainPure, specContentPath, h1, h2, h3, h4]
            | jobj fs => simp [chainPure, specContentPath, h1, h2, h3, h4]
  · intro parse d j hp
    have hld : lineDelta parse d = lineDeltaPure j := by simp [lineDelta, hp]
    rw [hld]
    by_cases t1 : truthyO (j.get "choices") = true
    · by_cases t2 : truthyO ((j.get "choices").bind (fun cj => cj.idx 0)) = true
      · by_cases t3 : truthyO (((j.get "choices").bind (fun cj => cj.idx 0)).bind
            (fun cj => cj.get "delta")) = true
        · simp [lineDeltaPure, deltaPresent, t1, t2, t3]
        · simp [lineDeltaPure, deltaPresent, t1, t2, t3]
      · simp [lineDeltaPure, deltaPresent, t1, t2]
    · simp [lineDeltaPure, deltaPresent, t1]

/-- C8 witness: the parse oracle maps the role-only payload to its
value, and on that frame the content-script render guard equals the
presence of the (truthy) delta. -/
theorem c8_witness :
    pfRole payloadRole = some jsonRole ∧
    (lineDelta pfRole payloadRole).isSome = deltaPresent jsonRole :=
  ⟨rfl, c8_theorem.2 pfRole payloadRole jsonRole rfl⟩

/-- C8 counterexample: the role-only frame has no content at the
`choices[0].delta.content` path, yet the content-script loop invokes
the render (with the unchanged, here empty, accumulated text) for that
frame. -/
theorem c8_counterexample :
    specContentPath jsonRole = none ∧
    (processLines pfRole initL [dataTag ++ payloadRole]).renders = [[]] := by
  decide

/-- C9 (amended): the content-script request uses temperature 0.3 when
the setting is unset, while the APIClient request built from options
without a temperature uses the 0.7 default of `chatCompletion`. -/
theorem c9_theorem :
    requestTemperature none = 3 / 10 ∧
    (∀ (s : ASettings) (o : CCOptions), o.temperature = none →
      (mergeOptions (ccDefaults s) o).temperature = 7 / 10) :=
  ⟨rfl, fun s o h => by simp [mergeOptions, ccDefaults, h]⟩

/-- C9 witness: concrete APIClient options without a temperature yield
the 0.7 default. -/
theorem c9_witness :
    (⟨none, none, none, none⟩ : CCOptions).temperature = none ∧
    (mergeOptions (ccDefaults ⟨['k'], ['u'], ['m']⟩) ⟨none, none, none, none⟩).temperature
      = 7 / 10 :=
  ⟨rfl, c9_theorem.2 ⟨['k'], ['u'], ['m']⟩ ⟨none, none, none, none⟩ rfl⟩

/-- C9 counterexample: a `chatCompletion` call whose options carry no
temperature sends a request whose temperature is 0.7, not 0.3. -/
theorem c9_counterexample :
    (chatCompletion ⟨['k'], ['u'], ['m']⟩ ⟨none, none, none, none⟩).1
      = .requested ⟨['m'], true, 7 / 10, 4000⟩ ∧ (7 : ℚ) / 10 ≠ 3 / 10 :=
  ⟨rfl, by norm_num⟩

/-- C10: page content longer than 65536 characters is truncated to
exactly its first 65536 characters with the truncation marker appended,
and content of at most 65536 characters is passed through unchanged. -/
theorem c10_theorem (s : Chars) :
    (65536 < s.length → contentSummary s = s.take 65536 ++ "...[content truncated]".toList) ∧
    (s.length ≤ 65536 → contentSummary s = s) := by
  constructor
  · intro h
    simp [contentSummary, h]
  · intro h
    have h2 : ¬s.length > 65536 := by omega
    simp [contentSummary, h2]

/-- C10 witness: a 65537-character content is truncated with the
marker, and a 65536-character content is unchanged. -/
theorem c10_witness :
    65536 < (List.replicate 65537 'a').length ∧
    contentSummary (List.replicate 65537 'a')
      = (List.replicate 65537 'a').take 65536 ++ "...[content truncated]".toList ∧
    (List.replicate 65536 'a').length ≤ 65536 ∧
    contentSummary (List.replicate 65536 'a') = List.replicate 65536 'a' :=
  ⟨by rw [List.length_replicate]; omega,
    (c10_theorem _).1 (by rw [List.length_replicate]; omega),
    by rw [List.length_replicate],
    (c10_theorem _).2 (by rw [List.length_replicate])⟩
